import Mathlib

/-!
Verification development for the resource-resolution core of the
workload-automation repository.

The Python sources embedded here are:
- wa/framework/resource.py : resource kinds, the ApkFile matching predicates,
  and the ResourceResolver
- wa/utils/android.py : the ApkInfo metadata record, the persistent
  ApkInfoCache, and get_cacheable_apk_info

Helpers from wa/utils/types.py (version_tuple, list_or_string, prioritylist)
are not part of the provided sources, so they are modelled from the spec
(sections 4.1, 4.5 and the data-model notes); each such definition carries a
doc comment starting with "Modelled from the spec:".

Python effects are made explicit: functions that can raise return an
Except PyErr value, filesystem access is an explicit environment, and the
global apk-info cache is threaded as explicit state.
-/

/-- Errors raised by the embedded Python code. Payloads that are only log
text in the source (exception messages) are dropped. -/
inductive PyErr where
  /-- os.stat on a path that does not exist (FileNotFoundError). -/
  | fileNotFound : String → PyErr
  /-- ValueError, raised by ApkInfoCache.store on a duplicate key. -/
  | valueError : PyErr
  /-- ResourceError, raised by ResourceResolver.get in strict mode. -/
  | resourceError : PyErr
  /-- IndexError, raised by indexing an empty list. -/
  | indexError : PyErr
  deriving Repr, DecidableEq

/-- Python truthiness of an optional string: None and the empty string are
falsy, every other string is truthy. -/
def pyTruthyStr (s : Option String) : Bool :=
  match s with
  | none => false
  | some t => t ≠ ""

/-- Split a character list on the dot character; mirrors str.split of the
Python version string on a segment delimiter. -/
def splitDots (cs : List Char) : List (List Char) :=
  match cs with
  | [] => [[]]
  | c :: rest =>
    let r := splitDots rest
    if c = '.' then [] :: r
    else
      match r with
      | [] => [[c]]
      | h :: t => (c :: h) :: t

/-- Numeric value of a digit list (most significant first). -/
def digitsToNat (cs : List Char) : Nat :=
  cs.foldl (fun acc c => acc * 10 + (c.toNat - 48)) 0

/-- Modelled from the spec: version_tuple from wa.utils.types is not under
src/. Per spec section 4.1 it splits a version string into dot-delimited
segments, coerces numeric segments so that lexicographic tuple comparison
matches semantic version ordering, and yields the empty sequence on an empty
or null input. Non-digit characters inside a segment are ignored. -/
def version_tuple (s : Option String) : List Nat :=
  match s with
  | none => []
  | some t =>
    if t = "" then []
    else (splitDots t.toList).map (fun seg => digitsToNat (seg.filter Char.isDigit))

/-- Lexicographic strict order on version tuples; mirrors Python tuple
comparison on tuples of ints (a shorter tuple that is a proper front segment
of a longer one compares as smaller). -/
def tupleLt : List Nat → List Nat → Bool
  | [], [] => false
  | [], _ :: _ => true
  | _ :: _, [] => false
  | a :: as, b :: bs => if a < b then true else if b < a then false else tupleLt as bs

/-- Lexicographic non-strict order on version tuples. -/
def tupleLe (a b : List Nat) : Bool := tupleLt a b || a == b

/-- Trichotomy of tuple comparison: not greater is the same as
less-or-equal, exactly as for Python tuples of ints. -/
theorem tupleLt_not_iff_le (a b : List Nat) : (!tupleLt b a) = tupleLe a b := by
  induction a generalizing b with
  | nil => cases b <;> rfl
  | cons x xs ih =>
    cases b with
    | nil => rfl
    | cons y ys =>
      have hih := ih ys
      simp only [tupleLe] at hih ⊢
      simp only [tupleLt, List.cons_beq_cons]
      rcases Nat.lt_trichotomy x y with h | h | h
      · simp [h, Nat.lt_asymm h]
      · subst h
        simp [Nat.lt_irrefl, hih]
      · have hne : (x == y) = false := by
          simp only [beq_eq_false_iff_ne, ne_eq]
          omega
        simp [h, Nat.lt_asymm h, hne]

/-- Embeds wa.framework.resource.range_version_matching: reject a falsy apk
version, then reject if above max_version (when truthy) or below min_version
(when truthy), else accept. -/
def range_version_matching (apk_version : Option String)
    (min_version : Option String) (max_version : Option String) : Bool :=
  if !pyTruthyStr apk_version then false
  else
    let apk_version_tuple := version_tuple (some (apk_version.getD ""))
    if pyTruthyStr max_version && tupleLt (version_tuple max_version) apk_version_tuple then false
    else if pyTruthyStr min_version && tupleLt apk_version_tuple (version_tuple min_version) then false
    else true

/-- Index-based equality of the first n segments, where n is the length of
the first list; mirrors the loop over range(len(config_version_tuple)) with
element indexing in wa.framework.resource.loose_version_matching. -/
def segmentsMatchUpTo (c a : List Nat) : Bool :=
  (List.range c.length).all (fun i => c.get? i == a.get? i)

/-- Embeds wa.framework.resource.loose_version_matching: fail when the apk
version tuple has fewer segments than the requested one, otherwise compare
the first n segments pairwise. -/
def loose_version_matching (config_version : String) (apk_version : Option String) : Bool :=
  let config_version_tuple := version_tuple (some config_version)
  let apk_version_tuple := version_tuple apk_version
  if apk_version_tuple.length < config_version_tuple.length then false
  else segmentsMatchUpTo config_version_tuple apk_version_tuple

/-- Unfolding of the index-based first-n-segments check on two cons cells. -/
theorem segmentsMatchUpTo_cons (x y : Nat) (xs ys : List Nat) :
    segmentsMatchUpTo (x :: xs) (y :: ys) = ((x == y) && segmentsMatchUpTo xs ys) := by
  simp only [segmentsMatchUpTo, List.length_cons, List.range_succ_eq_map, List.all_cons,
    List.all_map]
  have hc : ((fun i => (x :: xs).get? i == (y :: ys).get? i) ∘ Nat.succ)
      = (fun i => xs.get? i == ys.get? i) := by
    funext i
    simp [Function.comp, Nat.succ_eq_add_one]
  rw [hc]
  simp

/-- The guarded first-n-segments check of loose_version_matching is exactly
the boolean front-segment relation on lists. -/
theorem loose_guard_eq_isPrefixOf (c a : List Nat) :
    (if a.length < c.length then false else segmentsMatchUpTo c a) = c.isPrefixOf a := by
  induction c generalizing a with
  | nil => simp [segmentsMatchUpTo, List.isPrefixOf]
  | cons x xs ih =>
    cases a with
    | nil => simp [List.isPrefixOf]
    | cons y ys =>
      simp only [List.length_cons, List.isPrefixOf, segmentsMatchUpTo_cons]
      by_cases hl : ys.length < xs.length
      · rw [if_pos (by omega : ys.length + 1 < xs.length + 1)]
        have := ih ys
        rw [if_pos hl] at this
        rw [← this]
        simp
      · rw [if_neg (by omega : ¬ ys.length + 1 < xs.length + 1)]
        have := ih ys
        rw [if_neg hl] at this
        rw [this]

/-- Modelled from the spec: list_or_string from wa.utils.types is not under
src/. Per the spec data model the version parameter is a string or a list of
strings; a single string is treated as a one-element list. -/
inductive StrOrList where
  | str : String → StrOrList
  | list : List String → StrOrList
  deriving Repr, DecidableEq

/-- Modelled from the spec: coercion of a string-or-list value to a list of
strings (wa.utils.types.list_or_string). -/
def list_or_string : StrOrList → List String
  | .str s => [s]
  | .list l => l

/-- Python truthiness of a string-or-list value: the empty string and the
empty list are falsy. -/
def pyTruthySL (v : Option StrOrList) : Bool :=
  match v with
  | none => false
  | some (.str s) => s ≠ ""
  | some (.list l) => l ≠ []

/-- Base filename of a path: everything after the last slash; embeds
os.path.basename as used on POSIX paths. -/
def basenameChars (p : List Char) : List Char :=
  p.foldl (fun acc c => if c = '/' then [] else acc ++ [c]) []

/-- Extension part of os.path.splitext applied to a basename: the segment
starting at the last dot, except that dots leading the basename do not start
an extension. -/
def splitextExtChars (b : List Char) : List Char :=
  let lead := b.takeWhile (fun c => c = '.')
  let rest := b.drop lead.length
  if rest.contains '.' then '.' :: (rest.reverse.takeWhile (fun c => c ≠ '.')).reverse
  else []

/-- Lower-cased extension of a path, as computed by
os.path.splitext(path)[1].lower() in ApkFile.match_path. -/
def pathExtLower (path : String) : List Char :=
  (splitextExtChars (basenameChars path.toList)).map Char.toLower

/-- Boolean substring containment on character lists; embeds the Python
expression needle in haystack on strings. -/
def containsSub (needle : List Char) : List Char → Bool
  | [] => needle.isPrefixOf []
  | c :: rest => needle.isPrefixOf (c :: rest) || containsSub needle rest

/-- The record of extracted package metadata (wa.utils.android.ApkInfo and
its devlib base). The fields are exactly the ones copied by to_pod and
from_pod; the activities and methods fields model the already-extracted
values of the corresponding lazily-parsed attributes. -/
structure ApkInfo where
  path : Option String
  package : Option String
  activity : Option String
  label : Option String
  version_name : Option String
  version_code : Option String
  native_code : Option (List String)
  permissions : List String
  apk_path : Option String
  activities : List String
  methods : List String
  deriving Repr, DecidableEq

/-- The plain-old-data dictionary produced by ApkInfo.to_pod: one key per
serialized field. -/
structure ApkPod where
  path : Option String
  package : Option String
  activity : Option String
  label : Option String
  version_name : Option String
  version_code : Option String
  native_code : Option (List String)
  permissions : List String
  apk_path : Option String
  activities : List String
  methods : List String
  deriving Repr, DecidableEq

/-- Embeds ApkInfo.to_pod: copy every serialized field into the pod. -/
def ApkInfo.to_pod (i : ApkInfo) : ApkPod :=
  { path := i.path, package := i.package, activity := i.activity, label := i.label,
    version_name := i.version_name, version_code := i.version_code,
    native_code := i.native_code, permissions := i.permissions,
    apk_path := i.apk_path, activities := i.activities, methods := i.methods }

/-- Embeds ApkInfo.from_pod: rebuild the record from the pod fields. -/
def ApkInfo.from_pod (p : ApkPod) : ApkInfo :=
  { path := p.path, package := p.package, activity := p.activity, label := p.label,
    version_name := p.version_name, version_code := p.version_code,
    native_code := p.native_code, permissions := p.permissions,
    apk_path := p.apk_path, activities := p.activities, methods := p.methods }

/-- Serialization round trip: from_pod inverts to_pod field by field. -/
theorem ApkInfo.from_pod_to_pod (i : ApkInfo) : ApkInfo.from_pod (ApkInfo.to_pod i) = i := by
  cases i
  rfl

/-- Python truthiness of the native_code attribute: None and the empty list
are falsy. -/
def pyTruthyNC (nc : Option (List String)) : Bool :=
  match nc with
  | none => false
  | some l => l ≠ []

/-- The metadata accessor seen by the predicate matchers: what the call
get_cacheable_apk_info(path) returns for a candidate path, including a
possible raised error. The matchers are parametric in it; the concrete
accessor built from the cache state is defined below. -/
def GetInfo : Type := String → Except PyErr (Option ApkInfo)

/-- Body of wa.framework.resource.apk_version_matches after the metadata
fetch: some requested version equals the version name or version code, or
loosely matches the version name. An absent metadata record matches
nothing. -/
def apk_version_matchesInfo (info : Option ApkInfo) (versions : List String) : Bool :=
  versions.any (fun v =>
    match info with
    | none => false
    | some i =>
      (i.version_name == some v) || (i.version_code == some v)
        || loose_version_matching v i.version_name)

/-- Embeds wa.framework.resource.apk_version_matches. -/
def apk_version_matches (gi : GetInfo) (path : String) (version : StrOrList) :
    Except PyErr Bool := do
  let version_ := list_or_string version
  let info ← gi path
  pure (apk_version_matchesInfo info version_)

/-- Body of wa.framework.resource.apk_version_matches_range after the
metadata fetch: the version name, or the empty string when the record is
absent, is checked against the range. -/
def apk_version_matches_rangeInfo (info : Option ApkInfo)
    (min_version max_version : Option String) : Bool :=
  range_version_matching
    (match info with
     | some i => i.version_name
     | none => some "")
    min_version max_version

/-- Embeds wa.framework.resource.apk_version_matches_range. -/
def apk_version_matches_range (gi : GetInfo) (path : String)
    (min_version max_version : Option String) : Except PyErr Bool := do
  let info ← gi path
  pure (apk_version_matches_rangeInfo info min_version max_version)

/-- Embeds wa.framework.resource.file_name_matches: the pattern is a literal
substring of the base filename, or the regular-expression search of the
pattern in the base filename succeeds. The regular-expression engine is the
external re module, supplied as an environment function. -/
def file_name_matches (reSearch : String → String → Bool) (path : String)
    (pattern : String) : Bool :=
  let filename := String.mk (basenameChars path.toList)
  containsSub pattern.toList filename.toList || reSearch pattern filename

/-- The UI-automation namespace marker tested by uiauto_test_matches. -/
def uiautoMarker : List Char := "com.arm.wa.uiauto".toList

/-- Body of wa.framework.resource.uiauto_test_matches after the metadata
fetch: an absent record never matches; otherwise the requested flag must
equal the marker-containment test on the package identifier. -/
def uiauto_test_matchesInfo (info : Option ApkInfo) (uiauto : Bool) : Bool :=
  match info with
  | none => false
  | some i => uiauto == containsSub uiautoMarker (i.package.getD "").toList

/-- Embeds wa.framework.resource.uiauto_test_matches. -/
def uiauto_test_matches (gi : GetInfo) (path : String) (uiauto : Bool) :
    Except PyErr Bool := do
  let info ← gi path
  pure (uiauto_test_matchesInfo info uiauto)

/-- Body of wa.framework.resource.package_name_matches after the metadata
fetch. -/
def package_name_matchesInfo (info : Option ApkInfo) (package : String) : Bool :=
  match info with
  | none => false
  | some i => i.package == some package

/-- Embeds wa.framework.resource.package_name_matches. -/
def package_name_matches (gi : GetInfo) (path : String) (package : String) :
    Except PyErr Bool := do
  let info ← gi path
  pure (package_name_matchesInfo info package)

/-- Body of wa.framework.resource.apk_abi_matches after the metadata fetch:
an absent record never matches; metadata with no native code always matches;
with exact_abi only the first requested ABI is consulted (indexing an empty
request list raises IndexError); otherwise any requested ABI present in the
native-code list matches. -/
def apk_abi_matchesInfo (info : Option ApkInfo) (supported_abi : StrOrList)
    (exact_abi : Bool) : Except PyErr Bool :=
  let supported_abi_ := list_or_string supported_abi
  match info with
  | none => .ok false
  | some i =>
    if !pyTruthyNC i.native_code then .ok true
    else
      let nc := i.native_code.getD []
      if exact_abi then
        match supported_abi_ with
        | [] => .error .indexError
        | a :: _ => .ok (nc.contains a)
      else .ok (supported_abi_.any (fun abi => nc.contains abi))

/-- Embeds wa.framework.resource.apk_abi_matches. -/
def apk_abi_matches (gi : GetInfo) (path : String) (supported_abi : StrOrList)
    (exact_abi : Bool) : Except PyErr Bool := do
  let info ← gi path
  apk_abi_matchesInfo info supported_abi exact_abi

/-- The ApkFile resource (wa.framework.resource.ApkFile): the optional
matching parameters of the constructor. Optional parameters that were not
supplied are none; the two boolean flags default to false as in the
constructor signature. -/
structure ApkFile where
  variant : Option String := none
  version : Option StrOrList := none
  package : Option String := none
  uiauto : Bool := false
  exact_abi : Bool := false
  supported_abi : Option (List String) := none
  min_version : Option String := none
  max_version : Option String := none
  deriving Repr, DecidableEq

/-- Embeds ApkFile.match_path: the lower-cased extension of the candidate
path equals .apk. -/
def ApkFile.match_path (path : String) : Bool :=
  pathExtLower path == ".apk".toList

/-- Embeds ApkFile.match: evaluate the uiauto test unconditionally, then
each remaining matcher guarded by the Python truthiness of its constructor
parameter, and take the conjunction. Statement order follows the source. -/
def ApkFile.matchRes (gi : GetInfo) (reSearch : String → String → Bool)
    (apk : ApkFile) (path : String) : Except PyErr Bool :=
  Bind.bind (uiauto_test_matches gi path apk.uiauto) (fun uiauto_matches =>
  Bind.bind (match apk.version with
    | some v => if pyTruthySL (some v) then apk_version_matches gi path v else pure true
    | none => pure true) (fun version_matches =>
  Bind.bind (if pyTruthyStr apk.max_version || pyTruthyStr apk.min_version then
      apk_version_matches_range gi path apk.min_version apk.max_version
    else pure true) (fun version_range_matches =>
  let name_matches :=
    match apk.variant with
    | some pat => if pat ≠ "" then file_name_matches reSearch path pat else true
    | none => true
  Bind.bind (match apk.package with
    | some pkg => if pkg ≠ "" then package_name_matches gi path pkg else pure true
    | none => pure true) (fun package_matches =>
  Bind.bind (match apk.supported_abi with
    | some sa => if sa ≠ [] then apk_abi_matches gi path (.list sa) apk.exact_abi else pure true
    | none => pure true) (fun abi_matches =>
  pure (name_matches && version_matches && version_range_matches && uiauto_matches
    && package_matches && abi_matches))))))

/-- Branch-free form of the abi matcher used on the spec side of the match
conjunction; on a nonempty request list it agrees with the fallible
apk_abi_matchesInfo. -/
def apk_abi_matchesB (info : Option ApkInfo) (supported_abi : List String)
    (exact_abi : Bool) : Bool :=
  match info with
  | none => false
  | some i =>
    if !pyTruthyNC i.native_code then true
    else
      let nc := i.native_code.getD []
      if exact_abi then nc.contains (supported_abi.headD "")
      else supported_abi.any (fun abi => nc.contains abi)

/-- Statement of spec section 4.3 on the top-level match: the logical AND of
every predicate whose constructor parameter was supplied, an unsupplied
predicate defaulting to true; the UI-automation sub-test predicate is
governed by the always-present boolean flag. Defined from the spec text for
comparison with the source embedding ApkFile.matchRes. -/
def ApkFile.match_spec (reSearch : String → String → Bool) (apk : ApkFile)
    (path : String) (info : Option ApkInfo) : Bool :=
  (match apk.variant with
   | some pat => if pat ≠ "" then file_name_matches reSearch path pat else true
   | none => true)
  && (match apk.version with
      | some v => if pyTruthySL (some v) then apk_version_matchesInfo info (list_or_string v)
                  else true
      | none => true)
  && (if pyTruthyStr apk.max_version || pyTruthyStr apk.min_version then
        apk_version_matches_rangeInfo info apk.min_version apk.max_version
      else true)
  && (match apk.package with
      | some pkg => if pkg ≠ "" then package_name_matchesInfo info pkg else true
      | none => true)
  && (match apk.supported_abi with
      | some sa => if sa ≠ [] then apk_abi_matchesB info sa apk.exact_abi else true
      | none => true)
  && uiauto_test_matchesInfo info apk.uiauto

/-- Association-list lookup used to model Python dict.get on the in-memory
cache table. -/
def lookupAssoc (k : String) : List (String × ApkPod) → Option ApkPod
  | [] => none
  | (k', v) :: rest => if k' = k then some v else lookupAssoc k rest

/-- Association-list insertion used to model Python dict assignment: replace
the value in place when the key exists, append otherwise. -/
def insertAssoc (k : String) (v : ApkPod) : List (String × ApkPod) → List (String × ApkPod)
  | [] => [(k, v)]
  | (k', v') :: rest => if k' = k then (k, v) :: rest else (k', v') :: insertAssoc k v rest

/-- Looking a key up right after inserting it yields the inserted value. -/
theorem lookupAssoc_insertAssoc (k : String) (v : ApkPod) (l : List (String × ApkPod)) :
    lookupAssoc k (insertAssoc k v l) = some v := by
  induction l with
  | nil => simp [insertAssoc, lookupAssoc]
  | cons e rest ih =>
    obtain ⟨k', v'⟩ := e
    by_cases h : k' = k
    · simp [insertAssoc, lookupAssoc, h]
    · simp [insertAssoc, lookupAssoc, h, ih]

/-- State of the persisted cache file and of the file clock: the file slot
holds the last written mtime and table when the file exists, and the clock
supplies the mtime of the next write. -/
structure CacheDisk where
  file : Option (Nat × List (String × ApkPod))
  clock : Nat
  deriving Repr, DecidableEq

/-- In-memory state of wa.utils.android.ApkInfoCache: the stat result
recorded at the last synchronization and the in-memory table. -/
structure ApkInfoCache where
  last_modified : Option Nat
  cache : List (String × ApkPod)
  deriving Repr, DecidableEq

/-- Embeds ApkInfoCache._update_cache: do nothing when the persisted file
does not exist; reload the table and record the file mtime when the file
mtime differs from the recorded one. -/
def ApkInfoCache.updateFrom (d : CacheDisk) (c : ApkInfoCache) : ApkInfoCache :=
  match d.file with
  | none => c
  | some (m, content) =>
    if c.last_modified = some m then c
    else { last_modified := some m, cache := content }

/-- Embeds ApkInfoCache.__init__: start with no recorded mtime and an empty
table, then synchronize from the persisted file. -/
def ApkInfoCache.init (d : CacheDisk) : ApkInfoCache :=
  ApkInfoCache.updateFrom d { last_modified := none, cache := [] }

/-- Embeds ApkInfoCache.store: re-synchronize, raise ValueError when the key
exists and overwrite is false, otherwise update the table, persist it
atomically, and record the new file mtime. -/
def ApkInfoCache.store (d : CacheDisk) (c : ApkInfoCache) (apk_info : ApkInfo)
    (apk_id : String) (overwrite : Bool) : Except PyErr (CacheDisk × ApkInfoCache) :=
  let c1 := ApkInfoCache.updateFrom d c
  if (lookupAssoc apk_id c1.cache).isSome && !overwrite then .error .valueError
  else
    let cache' := insertAssoc apk_id (ApkInfo.to_pod apk_info) c1.cache
    .ok ({ file := some (d.clock, cache'), clock := d.clock + 1 },
         { last_modified := some d.clock, cache := cache' })

/-- The disk and memory state produced by a store call with overwrite set;
store with overwrite never raises and returns exactly this state. -/
def ApkInfoCache.storeTrue (d : CacheDisk) (c : ApkInfoCache) (apk_info : ApkInfo)
    (apk_id : String) : CacheDisk × ApkInfoCache :=
  let c1 := ApkInfoCache.updateFrom d c
  let cache' := insertAssoc apk_id (ApkInfo.to_pod apk_info) c1.cache
  ({ file := some (d.clock, cache'), clock := d.clock + 1 },
   { last_modified := some d.clock, cache := cache' })

/-- Store with overwrite set never raises and produces storeTrue. -/
theorem ApkInfoCache.store_overwrite_ok (d : CacheDisk) (c : ApkInfoCache)
    (apk_info : ApkInfo) (apk_id : String) :
    ApkInfoCache.store d c apk_info apk_id true
      = .ok (ApkInfoCache.storeTrue d c apk_info apk_id) := by
  simp [ApkInfoCache.store, ApkInfoCache.storeTrue]

/-- Embeds ApkInfoCache.get_info: re-synchronize, look the key up, and
deserialize the pod when present; returns the re-synchronized state
alongside the result. -/
def ApkInfoCache.get_info (d : CacheDisk) (c : ApkInfoCache) (key : String) :
    ApkInfoCache × Option ApkInfo :=
  let c1 := ApkInfoCache.updateFrom d c
  (c1, (lookupAssoc key c1.cache).map ApkInfo.from_pod)

/-- Environment of get_cacheable_apk_info: os.stat restricted to the mtime
it contributes (absent when the path does not exist, in which case stat
raises), and the metadata extraction performed by the ApkInfo constructor
(external parsing, modelled as total). -/
structure ApkEnv where
  statMtime : String → Option Nat
  extract : String → ApkInfo

/-- The identity key built by get_cacheable_apk_info from a path and the
file mtime. -/
def apkIdOf (p : String) (m : Nat) : String := p ++ "-" ++ toString m

/-- Embeds wa.utils.android.get_cacheable_apk_info: a falsy path yields
None; os.stat raises on a missing file; otherwise the (path, mtime) key is
looked up in the module-level cache (always present, created at import),
a hit is returned as is, and a miss extracts the metadata, stores it under
the key with overwrite set, and returns it. -/
def get_cacheable_apk_info (env : ApkEnv) (d : CacheDisk) (c : ApkInfoCache)
    (path : Option String) : Except PyErr (Option ApkInfo × CacheDisk × ApkInfoCache) :=
  if !pyTruthyStr path then .ok (none, d, c)
  else
    let p := path.getD ""
    match env.statMtime p with
    | none => .error (.fileNotFound p)
    | some modified =>
      let apk_id := apkIdOf p modified
      let (c1, info0) := ApkInfoCache.get_info d c apk_id
      match info0 with
      | some info => .ok (some info, d, c1)
      | none =>
        let info := env.extract p
        match ApkInfoCache.store d c1 info apk_id true with
        | .ok (d', c2) => .ok (some info, d', c2)
        | .error e => .error e

/-- Modelled from the spec: prioritylist from wa.utils.types is not under
src/. Per spec section 4.5 it supports add(source, priority) and forward
iteration from highest to lowest priority with insertion order inside one
priority tier. The container remembers the registration sequence. -/
structure prioritylist (A : Type) where
  entries : List (A × Int)

/-- Modelled from the spec: the empty container. -/
def prioritylist.empty {A : Type} : prioritylist A := ⟨[]⟩

/-- Modelled from the spec: add(source, priority) appends to the
registration sequence. -/
def prioritylist.add {A : Type} (pl : prioritylist A) (x : A) (p : Int) : prioritylist A :=
  ⟨pl.entries ++ [(x, p)]⟩

/-- Ordered insertion of a priority value into a strictly descending list,
dropping duplicates. -/
def insertTier (p : Int) : List Int → List Int
  | [] => [p]
  | q :: qs => if q < p then p :: q :: qs else if q = p then q :: qs else q :: insertTier p qs

/-- Modelled from the spec: the distinct priority values present in the
container, highest first. -/
def prioritylist.tiers {A : Type} (pl : prioritylist A) : List Int :=
  pl.entries.foldr (fun e acc => insertTier e.2 acc) []

/-- Modelled from the spec: iteration order with priorities attached —
tiers from highest to lowest, registration order inside each tier. -/
def prioritylist.toPairs {A : Type} (pl : prioritylist A) : List (A × Int) :=
  pl.tiers.flatMap (fun p => pl.entries.filter (fun e => e.2 == p))

/-- Modelled from the spec: forward iteration over the registered sources. -/
def prioritylist.toList {A : Type} (pl : prioritylist A) : List A :=
  pl.toPairs.map Prod.fst

/-- The probing loop of ResourceResolver.get: invoke each source with the
resource and return at the first non-null result. -/
def resolveLoop {R : Type} (resource : R) : List (R → Option String) → Option String
  | [] => none
  | s :: rest =>
    match s resource with
    | some result => some result
    | none => resolveLoop resource rest

/-- Embeds ResourceResolver.get: probe the registered sources in iteration
order; the first non-null path is returned immediately; on exhaustion raise
ResourceError when strict, otherwise return None. -/
def ResourceResolver.get {R : Type} (sources : prioritylist (R → Option String))
    (resource : R) (strict : Bool) : Except PyErr (Option String) :=
  match resolveLoop resource sources.toList with
  | some result => .ok (some result)
  | none => if strict then .error .resourceError else .ok none

/-- The probing loop returns the first non-null source application. -/
theorem resolveLoop_eq_findSome {R : Type} (resource : R) (l : List (R → Option String)) :
    resolveLoop resource l = l.findSome? (fun s => s resource) := by
  induction l with
  | nil => rfl
  | cons s rest ih =>
    simp only [resolveLoop, List.findSome?]
    cases s resource with
    | none => simpa using ih
    | some r => rfl

/-- Sources that all fail make the probing loop fail. -/
theorem resolveLoop_none {R : Type} (resource : R) (l : List (R → Option String))
    (h : ∀ s ∈ l, s resource = none) : resolveLoop resource l = none := by
  induction l with
  | nil => rfl
  | cons s rest ih =>
    have hs : s resource = none := h s (by simp)
    simp only [resolveLoop, hs]
    exact ih (fun t ht => h t (by simp [ht]))

/-- Membership after ordered insertion of a priority value. -/
theorem mem_insertTier (p q : Int) (l : List Int) :
    q ∈ insertTier p l ↔ q = p ∨ q ∈ l := by
  induction l with
  | nil => simp [insertTier]
  | cons r rs ih =>
    by_cases h1 : r < p
    · simp [insertTier, h1]
    · by_cases h2 : r = p
      · subst h2
        have hstep : insertTier r (r :: rs) = r :: rs := by
          simp [insertTier, h1]
        rw [hstep, List.mem_cons]
        tauto
      · simp only [insertTier, if_neg h1, if_neg h2, List.mem_cons, ih]
        tauto

/-- Ordered insertion preserves the strictly descending ordering. -/
theorem insertTier_sorted (p : Int) (l : List Int)
    (h : l.Pairwise (fun a b => b < a)) :
    (insertTier p l).Pairwise (fun a b => b < a) := by
  induction l with
  | nil => simp [insertTier]
  | cons q qs ih =>
    rw [List.pairwise_cons] at h
    obtain ⟨hq, hqs⟩ := h
    by_cases h1 : q < p
    · simp only [insertTier, if_pos h1]
      refine List.Pairwise.cons ?_ (List.Pairwise.cons hq hqs)
      intro x hx
      rcases List.mem_cons.mp hx with rfl | hx'
      · exact h1
      · exact lt_trans (hq x hx') h1
    · by_cases h2 : q = p
      · simp only [insertTier, if_neg h1, if_pos h2]
        exact List.Pairwise.cons hq hqs
      · simp only [insertTier, if_neg h1, if_neg h2]
        refine List.Pairwise.cons ?_ (ih hqs)
        intro x hx
        rcases (mem_insertTier p x qs).mp hx with rfl | hx'
        · omega
        · exact hq x hx'

/-- The tier list of a priority container is strictly descending. -/
theorem tiers_sorted {A : Type} (pl : prioritylist A) :
    pl.tiers.Pairwise (fun a b => b < a) := by
  show (pl.entries.foldr (fun e acc => insertTier e.2 acc) []).Pairwise _
  induction pl.entries with
  | nil => simp
  | cons e rest ih => exact insertTier_sorted e.2 _ ih

/-- A priority value appears among the tiers exactly when some registered
entry carries it. -/
theorem mem_tiers {A : Type} (pl : prioritylist A) (p : Int) :
    p ∈ pl.tiers ↔ ∃ e ∈ pl.entries, e.2 = p := by
  show p ∈ pl.entries.foldr (fun e acc => insertTier e.2 acc) [] ↔ _
  induction pl.entries with
  | nil => simp
  | cons e rest ih =>
    simp only [List.foldr_cons, mem_insertTier, ih, List.mem_cons]
    constructor
    · rintro (rfl | ⟨f, hf, rfl⟩)
      · exact ⟨e, Or.inl rfl, rfl⟩
      · exact ⟨f, Or.inr hf, rfl⟩
    · rintro ⟨f, rfl | hf, rfl⟩
      · exact Or.inl rfl
      · exact Or.inr ⟨f, hf, rfl⟩

/-- Iteration yields the registered sources in weakly descending priority
order: a source never appears after one of strictly lower priority. -/
theorem toPairs_sorted {A : Type} (pl : prioritylist A) :
    pl.toPairs.Pairwise (fun x y => y.2 ≤ x.2) := by
  rw [prioritylist.toPairs, List.flatMap_def, List.pairwise_flatten]
  constructor
  · intro l hl
    rcases List.mem_map.mp hl with ⟨p, _, rfl⟩
    refine List.pairwise_of_forall_mem_list ?_
    intro a ha b hb
    have ha2 : a.2 = p := by simpa using (List.mem_filter.mp ha).2
    have hb2 : b.2 = p := by simpa using (List.mem_filter.mp hb).2
    omega
  · rw [List.pairwise_map]
    refine (tiers_sorted pl).imp ?_
    intro p q hpq x hx y hy
    have hx2 : x.2 = p := by simpa using (List.mem_filter.mp hx).2
    have hy2 : y.2 = q := by simpa using (List.mem_filter.mp hy).2
    omega

/-- Restricting a flat-mapped tier expansion to a priority absent from the
tier list yields nothing. -/
theorem flatMap_filter_not_mem {A : Type} (entries : List (A × Int)) (ts : List Int)
    (p : Int) (hp : p ∉ ts) :
    (ts.flatMap (fun q => entries.filter (fun e => e.2 == q))).filter
      (fun e => e.2 == p) = [] := by
  rw [List.filter_eq_nil_iff]
  intro a ha
  rcases List.mem_flatMap.mp ha with ⟨q, hq, haq⟩
  have ha2 : a.2 = q := by simpa using (List.mem_filter.mp haq).2
  have : q ≠ p := fun h => hp (h ▸ hq)
  simp [ha2, this]

/-- Iteration preserves registration order within one priority tier: the
sources the iteration yields at priority p are exactly the entries
registered at p, in registration order. -/
theorem toPairs_filter {A : Type} (pl : prioritylist A) (p : Int) :
    pl.toPairs.filter (fun e => e.2 == p) = pl.entries.filter (fun e => e.2 == p) := by
  have hiff : p ∈ pl.tiers ↔ pl.entries.filter (fun e => e.2 == p) ≠ [] := by
    rw [mem_tiers]
    constructor
    · rintro ⟨e, he, rfl⟩
      intro hnil
      rw [List.filter_eq_nil_iff] at hnil
      exact hnil e he (by simp)
    · intro hne
      rcases List.exists_mem_of_ne_nil _ hne with ⟨e, he⟩
      have := List.mem_filter.mp he
      exact ⟨e, this.1, by simpa using this.2⟩
  have hnodup : pl.tiers.Pairwise (fun a b => a ≠ b) :=
    (tiers_sorted pl).imp (fun h => by omega)
  rw [prioritylist.toPairs]
  revert hiff hnodup
  induction pl.tiers with
  | nil =>
    intro hiff _
    simp only [List.flatMap_nil, List.filter_nil]
    by_contra hne
    exact List.not_mem_nil p (hiff.mpr (fun h => hne h.symm))
  | cons q ts ih =>
    intro hiff hnodup
    rw [List.pairwise_cons] at hnodup
    obtain ⟨hqts, hts⟩ := hnodup
    rw [List.flatMap_cons, List.filter_append]
    by_cases hqp : q = p
    · subst hqp
      have h1 : (pl.entries.filter (fun e => e.2 == q)).filter (fun e => e.2 == q)
          = pl.entries.filter (fun e => e.2 == q) := by
        rw [List.filter_filter]
        simp
      have hq_not_ts : q ∉ ts := fun h => hqts q h rfl
      rw [h1, flatMap_filter_not_mem pl.entries ts q hq_not_ts, List.append_nil]
    · have h1 : (pl.entries.filter (fun e => e.2 == q)).filter (fun e => e.2 == p) = [] := by
        rw [List.filter_eq_nil_iff]
        intro a ha
        have ha2 : a.2 = q := by simpa using (List.mem_filter.mp ha).2
        simp [ha2, hqp]
      rw [h1, List.nil_append]
      refine ih ?_ hts
      constructor
      · intro hpts
        exact hiff.mp (List.mem_cons.mpr (Or.inr hpts))
      · intro hne
        rcases List.mem_cons.mp (hiff.mpr hne) with rfl | h
        · exact absurd rfl hqp
        · exact h

/-- Branch identity used to rewrite the sequential reject-checks of
range_version_matching into a conjunction. -/
theorem ite_reject_reject_true (c1 c2 : Bool) :
    (if c1 then false else if c2 then false else true) = (!c1 && !c2) := by
  cases c1 <;> cases c2 <;> rfl

/-- C4: for every requested version string and candidate metadata version,
loose version matching fails when the candidate tuple has fewer segments
than the requested one and otherwise accepts exactly when the first n
segments agree — that is, it is exactly the front-segment (prefix) relation
on version tuples; in particular 1.2 loosely matches 1.2.7 while 1.2.7 does
not loosely match 1.2. -/
theorem loose_version_matching_is_front_segment_relation :
    (∀ (c : String) (a : Option String),
      loose_version_matching c a
        = (version_tuple (some c)).isPrefixOf (version_tuple a)) ∧
    loose_version_matching "1.2" (some "1.2.7") = true ∧
    loose_version_matching "1.2.7" (some "1.2") = false := by
  refine ⟨?_, by decide, by decide⟩
  intro c a
  exact loose_guard_eq_isPrefixOf (version_tuple (some c)) (version_tuple a)

/-- C5: range matching accepts exactly when the metadata version is truthy,
at most max_version when that bound is given, and at least min_version when
that bound is given, under lexicographic version-tuple comparison; a null or
empty metadata version always fails, bounds or not. The spec's concrete
range examples are included. -/
theorem range_version_matching_bounds :
    (∀ (av mn mx : Option String),
      range_version_matching av mn mx
        = (pyTruthyStr av
            && (!pyTruthyStr mx
                || tupleLe (version_tuple (some (av.getD ""))) (version_tuple mx))
            && (!pyTruthyStr mn
                || tupleLe (version_tuple mn) (version_tuple (some (av.getD "")))))) ∧
    range_version_matching (some "2.5.1") (some "2.0") (some "3.0") = true ∧
    range_version_matching (some "3.1") (some "2.0") (some "3.0") = false ∧
    range_version_matching (some "1.9") (some "2.0") (some "3.0") = false ∧
    (∀ mn mx, range_version_matching none mn mx = false
      ∧ range_version_matching (some "") mn mx = false) := by
  refine ⟨?_, by decide, by decide, by decide, ?_⟩
  · intro av mn mx
    by_cases hav : pyTruthyStr av
    · simp only [range_version_matching, hav, Bool.not_true, Bool.false_eq_true, if_false,
        ite_reject_reject_true, Bool.not_and, tupleLt_not_iff_le, Bool.true_and]
    · simp [range_version_matching, hav]
  · intro mn mx
    constructor <;> rfl

/-- C10: match_path accepts a candidate path exactly when the extension
computed by splitext, compared case-insensitively, is .apk; upper and mixed
case extensions such as FOO.APK and app.Apk pass the pre-filter. -/
theorem match_path_extension_case_insensitive :
    (∀ path : String,
      ApkFile.match_path path = true
        ↔ (splitextExtChars (basenameChars path.toList)).map Char.toLower
            = ".apk".toList) ∧
    ApkFile.match_path "FOO.APK" = true ∧
    ApkFile.match_path "app.Apk" = true ∧
    ApkFile.match_path "dir/sub/game.apk" = true ∧
    ApkFile.match_path "archive.txt" = false ∧
    ApkFile.match_path "apk" = false := by
  refine ⟨?_, by decide, by decide, by decide, by decide, by decide⟩
  intro path
  rw [ApkFile.match_path, pathExtLower]
  exact beq_iff_eq

/-- C2: when no registered source matches the resource, strict resolution
raises the resource-not-found error and non-strict resolution returns None
and never raises. -/
theorem resolver_exhaustion_strict_nonstrict (R : Type)
    (pl : prioritylist (R → Option String)) (r : R)
    (h : ∀ s ∈ pl.toList, s r = none) :
    ResourceResolver.get pl r true = .error .resourceError ∧
    ResourceResolver.get pl r false = .ok none := by
  have hl := resolveLoop_none r pl.toList h
  constructor <;> simp [ResourceResolver.get, hl]

/-- Witness for C2 at the empty registration sequence. -/
theorem resolver_exhaustion_strict_nonstrict_witness :
    (∀ s ∈ (prioritylist.empty : prioritylist (Nat → Option String)).toList, s 0 = none) ∧
    ResourceResolver.get (prioritylist.empty : prioritylist (Nat → Option String)) 0 true
      = .error .resourceError :=
  ⟨by simp [prioritylist.toList, prioritylist.toPairs, prioritylist.tiers, prioritylist.empty],
   (resolver_exhaustion_strict_nonstrict Nat prioritylist.empty 0
      (by simp [prioritylist.toList, prioritylist.toPairs, prioritylist.tiers,
        prioritylist.empty])).1⟩

/-- Monadic sequencing after a successful step reduces to the
continuation. -/
theorem exceptBind_ok {E A B : Type} (a : A) (f : A → Except E B) :
    (Except.ok a >>= f : Except E B) = f a := rfl

/-- On a nonempty requested ABI list the fallible abi matcher body never
raises and agrees with its branch-free form. -/
theorem apk_abi_matchesInfo_ok (info : Option ApkInfo) (v : StrOrList) (e : Bool)
    (h : list_or_string v ≠ []) :
    apk_abi_matchesInfo info v e = .ok (apk_abi_matchesB info (list_or_string v) e) := by
  cases info with
  | none => simp [apk_abi_matchesInfo, apk_abi_matchesB]
  | some i =>
    by_cases hnc : pyTruthyNC i.native_code
    · rcases hsa : list_or_string v with _ | ⟨a, rest⟩
      · exact absurd hsa h
      · cases e <;> simp [apk_abi_matchesInfo, apk_abi_matchesB, hnc, hsa]
    · simp [apk_abi_matchesInfo, apk_abi_matchesB, hnc]

/-- C6: with metadata present, the ABI match always accepts when no native
code is reported; with exact_abi it accepts exactly when the first requested
ABI appears in the native-code list, the remaining requested ABIs being
irrelevant; otherwise it accepts exactly when some requested ABI appears in
the native-code list. -/
theorem apk_abi_matches_rules (gi : GetInfo) (path : String) (i : ApkInfo)
    (h : gi path = .ok (some i)) :
    (pyTruthyNC i.native_code = false →
      ∀ (sa : StrOrList) (e : Bool), apk_abi_matches gi path sa e = .ok true) ∧
    (pyTruthyNC i.native_code = true →
      (∀ (a : String) (rest : List String),
        (apk_abi_matches gi path (.list (a :: rest)) true = .ok true
          ↔ a ∈ i.native_code.getD [])) ∧
      (∀ sa : StrOrList,
        (apk_abi_matches gi path sa false = .ok true
          ↔ ∃ x ∈ list_or_string sa, x ∈ i.native_code.getD []))) := by
  refine ⟨?_, fun hnc => ⟨?_, ?_⟩⟩
  · intro hnc sa e
    simp [apk_abi_matches, h, apk_abi_matchesInfo, hnc, exceptBind_ok]
  · intro a rest
    simp [apk_abi_matches, h, apk_abi_matchesInfo, hnc, exceptBind_ok, list_or_string]
  · intro sa
    simp [apk_abi_matches, h, apk_abi_matchesInfo, hnc, exceptBind_ok, List.any_eq_true]

/-- Witness for C6: an apk with native code arm64 and a two-element request
list under exact matching. -/
theorem apk_abi_matches_rules_witness :
    ((fun _ => Except.ok (some (⟨some "a.apk", some "com.example", none, none, some "1.0",
        none, some ["arm64"], [], none, [], []⟩ : ApkInfo)) : GetInfo) "a.apk"
      = .ok (some ⟨some "a.apk", some "com.example", none, none, some "1.0",
        none, some ["arm64"], [], none, [], []⟩)) ∧
    apk_abi_matches
      (fun _ => Except.ok (some (⟨some "a.apk", some "com.example", none, none, some "1.0",
        none, some ["arm64"], [], none, [], []⟩ : ApkInfo)))
      "a.apk" (.list ["arm64", "armeabi"]) true = .ok true :=
  ⟨rfl,
   (((apk_abi_matches_rules
      (fun _ => Except.ok (some (⟨some "a.apk", some "com.example", none, none, some "1.0",
        none, some ["arm64"], [], none, [], []⟩ : ApkInfo)))
      "a.apk"
      ⟨some "a.apk", some "com.example", none, none, some "1.0",
        none, some ["arm64"], [], none, [], []⟩
      rfl).2 rfl).1 "arm64" ["armeabi"]).mpr (by decide)⟩

/-- With a successful metadata lookup the top-level match reduces to the ok
value of the guarded conjunction, components ordered as in the source
return statement. -/
theorem matchRes_ok (gi : GetInfo) (rs : String → String → Bool) (apk : ApkFile)
    (path : String) (info : Option ApkInfo) (h : gi path = .ok info) :
    ApkFile.matchRes gi rs apk path = .ok (
      (match apk.variant with
       | some pat => if pat ≠ "" then file_name_matches rs path pat else true
       | none => true)
      && (match apk.version with
          | some v => if pyTruthySL (some v) then apk_version_matchesInfo info (list_or_string v)
                      else true
          | none => true)
      && (if pyTruthyStr apk.max_version || pyTruthyStr apk.min_version then
            apk_version_matches_rangeInfo info apk.min_version apk.max_version
          else true)
      && uiauto_test_matchesInfo info apk.uiauto
      && (match apk.package with
          | some pkg => if pkg ≠ "" then package_name_matchesInfo info pkg else true
          | none => true)
      && (match apk.supported_abi with
          | some sa => if sa ≠ [] then apk_abi_matchesB info sa apk.exact_abi else true
          | none => true)) := by
  have hu : uiauto_test_matches gi path apk.uiauto
      = .ok (uiauto_test_matchesInfo info apk.uiauto) := by
    rw [uiauto_test_matches, h, exceptBind_ok]
    rfl
  have hv : (match apk.version with
      | some v => if pyTruthySL (some v) then apk_version_matches gi path v else pure true
      | none => pure true)
      = Except.ok (match apk.version with
      | some v => if pyTruthySL (some v) then apk_version_matchesInfo info (list_or_string v)
                  else true
      | none => true) := by
    rcases apk.version with _ | v
    · rfl
    · show (if pyTruthySL (some v) then apk_version_matches gi path v else pure true)
        = Except.ok (if pyTruthySL (some v) then apk_version_matchesInfo info (list_or_string v)
            else true)
      by_cases hvv : pyTruthySL (some v)
      · rw [if_pos hvv, if_pos hvv, apk_version_matches, h, exceptBind_ok]
        rfl
      · rw [if_neg hvv, if_neg hvv]
        rfl
  have hr : (if pyTruthyStr apk.max_version || pyTruthyStr apk.min_version then
        apk_version_matches_range gi path apk.min_version apk.max_version
      else pure true)
      = Except.ok (if pyTruthyStr apk.max_version || pyTruthyStr apk.min_version then
        apk_version_matches_rangeInfo info apk.min_version apk.max_version
      else true) := by
    by_cases hg : (pyTruthyStr apk.max_version || pyTruthyStr apk.min_version) = true
    · rw [if_pos hg, if_pos hg, apk_version_matches_range, h, exceptBind_ok]
      rfl
    · rw [if_neg hg, if_neg hg]
      rfl
  have hp : (match apk.package with
      | some pkg => if pkg ≠ "" then package_name_matches gi path pkg else pure true
      | none => pure true)
      = Except.ok (match apk.package with
      | some pkg => if pkg ≠ "" then package_name_matchesInfo info pkg else true
      | none => true) := by
    rcases apk.package with _ | pkg
    · rfl
    · show (if pkg ≠ "" then package_name_matches gi path pkg else pure true)
        = Except.ok (if pkg ≠ "" then package_name_matchesInfo info pkg else true)
      by_cases hpk : pkg ≠ ""
      · rw [if_pos hpk, if_pos hpk, package_name_matches, h, exceptBind_ok]
        rfl
      · rw [if_neg hpk, if_neg hpk]
        rfl
  have ha : (match apk.supported_abi with
      | some sa => if sa ≠ [] then apk_abi_matches gi path (.list sa) apk.exact_abi
                   else pure true
      | none => pure true)
      = Except.ok (match apk.supported_abi with
      | some sa => if sa ≠ [] then apk_abi_matchesB info sa apk.exact_abi else true
      | none => true) := by
    rcases apk.supported_abi with _ | sa
    · rfl
    · show (if sa ≠ [] then apk_abi_matches gi path (.list sa) apk.exact_abi else pure true)
        = Except.ok (if sa ≠ [] then apk_abi_matchesB info sa apk.exact_abi else true)
      by_cases hsa : sa ≠ []
      · have hok := apk_abi_matchesInfo_ok info (.list sa) apk.exact_abi
          (by simpa [list_or_string] using hsa)
        rw [if_pos hsa, if_pos hsa, apk_abi_matches, h, exceptBind_ok, hok]
        rfl
      · rw [if_neg hsa, if_neg hsa]
        rfl
  simp only [ApkFile.matchRes, hu, hv, hr, hp, ha, exceptBind_ok]
  rfl

/-- Conjunction reordering between the source return statement and the spec
listing order. -/
theorem and_reorder_spec (n v r u p a : Bool) :
    (n && v && r && u && p && a) = (n && v && r && p && a && u) := by
  cases n <;> cases v <;> cases r <;> cases u <;> cases p <;> cases a <;> rfl

/-- C3: with the metadata lookup succeeding for the candidate path, the
top-level ApkFile match is exactly the logical AND of the predicates whose
constructor parameters were supplied, every unsupplied predicate defaulting
to true, with the UI-automation sub-test governed by its always-present
boolean flag — that is, the source embedding agrees with the spec-side
conjunction ApkFile.match_spec. -/
theorem apkfile_match_is_guarded_conjunction (gi : GetInfo)
    (rs : String → String → Bool) (apk : ApkFile) (path : String)
    (info : Option ApkInfo) (h : gi path = .ok info) :
    ApkFile.matchRes gi rs apk path = .ok (ApkFile.match_spec rs apk path info) := by
  rw [matchRes_ok gi rs apk path info h, ApkFile.match_spec, and_reorder_spec]

/-- Witness for C3: a parameterless ApkFile request and an accessor that
reports no metadata. -/
theorem apkfile_match_is_guarded_conjunction_witness :
    ((fun _ => Except.ok none : GetInfo) "app.apk" = .ok none) ∧
    ApkFile.matchRes (fun _ => Except.ok none) (fun _ _ => false) {} "app.apk"
      = .ok (ApkFile.match_spec (fun _ _ => false) {} "app.apk" none) :=
  ⟨rfl, apkfile_match_is_guarded_conjunction (fun _ => Except.ok none)
    (fun _ _ => false) {} "app.apk" none rfl⟩

/-- C1: resolution probes the registered sources in iteration order and
returns the first non-null path; iteration is strictly highest-priority
first (weakly descending priorities along the yielded sequence) and keeps
registration order inside one priority tier; consequently, with two sources
registered at priorities p1 greater than p2 and the p1 source matching, the
result is the p1 source's path in either registration order. -/
theorem resolver_priority_first_match :
    (∀ (R : Type) (pl : prioritylist (R → Option String)) (r : R) (strict : Bool)
        (v : String),
      ResourceResolver.get pl r strict = .ok (some v)
        ↔ pl.toList.findSome? (fun s => s r) = some v) ∧
    (∀ (A : Type) (pl : prioritylist A),
      pl.toPairs.Pairwise (fun x y => y.2 ≤ x.2)) ∧
    (∀ (A : Type) (pl : prioritylist A) (p : Int),
      pl.toPairs.filter (fun e => e.2 == p) = pl.entries.filter (fun e => e.2 == p)) ∧
    (∀ (R : Type) (r : R) (s1 s2 : R → Option String) (p1 p2 : Int) (a b : String)
        (strict : Bool),
      p2 < p1 → s1 r = some a → s2 r = some b →
      ResourceResolver.get ((prioritylist.empty.add s2 p2).add s1 p1) r strict
        = .ok (some a) ∧
      ResourceResolver.get ((prioritylist.empty.add s1 p1).add s2 p2) r strict
        = .ok (some a)) := by
  refine ⟨?_, fun A pl => toPairs_sorted pl, fun A pl p => toPairs_filter pl p, ?_⟩
  · intro R pl r strict v
    rw [ResourceResolver.get, resolveLoop_eq_findSome]
    cases hf : pl.toList.findSome? (fun s => s r) with
    | some w =>
      constructor
      · intro hok
        cases hok
        rfl
      · intro hw
        cases hw
        rfl
    | none =>
      cases strict <;> simp
  · intro R r s1 s2 p1 p2 a b strict hlt h1 h2
    have hne : p1 ≠ p2 := by omega
    have hnlt : ¬ p1 < p2 := by omega
    have hb21 : (p2 == p1) = false := beq_eq_false_iff_ne.mpr (by omega)
    have hb12 : (p1 == p2) = false := beq_eq_false_iff_ne.mpr hne
    have htiers : ∀ (x y : R → Option String),
        (prioritylist.mk [(x, p2), (y, p1)] : prioritylist (R → Option String)).tiers
          = [p1, p2] := by
      intro x y
      show insertTier p2 (insertTier p1 []) = [p1, p2]
      simp only [insertTier]
      rw [if_neg hnlt, if_neg hne]
    have htiers' : ∀ (x y : R → Option String),
        (prioritylist.mk [(x, p1), (y, p2)] : prioritylist (R → Option String)).tiers
          = [p1, p2] := by
      intro x y
      show insertTier p1 (insertTier p2 []) = [p1, p2]
      simp only [insertTier]
      rw [if_pos hlt]
    have hb1 : ((prioritylist.empty.add s2 p2).add s1 p1
        : prioritylist (R → Option String)).toList = [s1, s2] := by
      rw [prioritylist.toList, prioritylist.toPairs]
      show ((prioritylist.mk [(s2, p2), (s1, p1)]).tiers.flatMap _).map Prod.fst = _
      rw [htiers s2 s1]
      simp [prioritylist.add, prioritylist.empty, List.filter, hb21, hb12]
    have hb2 : ((prioritylist.empty.add s1 p1).add s2 p2
        : prioritylist (R → Option String)).toList = [s1, s2] := by
      rw [prioritylist.toList, prioritylist.toPairs]
      show ((prioritylist.mk [(s1, p1), (s2, p2)]).tiers.flatMap _).map Prod.fst = _
      rw [htiers' s1 s2]
      simp [prioritylist.add, prioritylist.empty, List.filter, hb21, hb12]
    constructor
    · rw [ResourceResolver.get, hb1]
      simp [resolveLoop, h1]
    · rw [ResourceResolver.get, hb2]
      simp [resolveLoop, h1]

/-- Witness for C1: two constant sources at priorities 10 and 0. -/
theorem resolver_priority_first_match_witness :
    ((0 : Int) < 10 ∧ (fun _ => some "high" : Nat → Option String) 7 = some "high"
      ∧ (fun _ => some "low" : Nat → Option String) 7 = some "low") ∧
    ResourceResolver.get
      ((prioritylist.empty.add (fun _ => some "low") 0).add (fun _ => some "high") 10)
      7 true = .ok (some "high") :=
  ⟨⟨by omega, rfl, rfl⟩,
   (resolver_priority_first_match.2.2.2 Nat 7 (fun _ => some "high") (fun _ => some "low")
      10 0 "high" "low" true (by omega) rfl rfl).1⟩

/-- C7 counterexample: with a path that is non-null but does not exist on
the filesystem, get_cacheable_apk_info does not return None — it raises
FileNotFoundError out of the unguarded os.stat call. -/
theorem get_cacheable_apk_info_missing_file_raises :
    get_cacheable_apk_info
      ⟨fun _ => none,
       fun p => ⟨some p, none, none, none, none, none, none, [], none, [], []⟩⟩
      ⟨none, 0⟩ ⟨none, []⟩ (some "x.apk")
      = .error (.fileNotFound "x.apk") := rfl

/-- C7 as amended: get_cacheable_apk_info returns None only for a null or
empty path; a non-empty path whose file does not exist raises
FileNotFoundError; otherwise it returns the cached metadata on a hit for
the (path, mtime) identity key, and on a miss extracts the metadata,
stores it under that key, and returns it. -/
theorem get_cacheable_apk_info_behavior (env : ApkEnv) (d : CacheDisk)
    (c : ApkInfoCache) (p : String) (m : Nat) :
    (get_cacheable_apk_info env d c none = .ok (none, d, c)) ∧
    (get_cacheable_apk_info env d c (some "") = .ok (none, d, c)) ∧
    (p ≠ "" → env.statMtime p = none →
      get_cacheable_apk_info env d c (some p) = .error (.fileNotFound p)) ∧
    (∀ info c1, p ≠ "" → env.statMtime p = some m →
      ApkInfoCache.get_info d c (apkIdOf p m) = (c1, some info) →
      get_cacheable_apk_info env d c (some p) = .ok (some info, d, c1)) ∧
    (∀ c1, p ≠ "" → env.statMtime p = some m →
      ApkInfoCache.get_info d c (apkIdOf p m) = (c1, none) →
      get_cacheable_apk_info env d c (some p)
        = .ok (some (env.extract p),
               (ApkInfoCache.storeTrue d c1 (env.extract p) (apkIdOf p m)).1,
               (ApkInfoCache.storeTrue d c1 (env.extract p) (apkIdOf p m)).2)) := by
  refine ⟨rfl, rfl, ?_, ?_, ?_⟩
  · intro hp hstat
    have hps : pyTruthyStr (some p) = true := by simp [pyTruthyStr, hp]
    rw [get_cacheable_apk_info]
    simp [hps, hstat]
  · intro info c1 hp hstat hget
    have hps : pyTruthyStr (some p) = true := by simp [pyTruthyStr, hp]
    rw [get_cacheable_apk_info]
    simp [hps, hstat, hget]
  · intro c1 hp hstat hget
    have hps : pyTruthyStr (some p) = true := by simp [pyTruthyStr, hp]
    rw [get_cacheable_apk_info]
    simp [hps, hstat, hget, ApkInfoCache.store_overwrite_ok]

/-- Witness for C7: a one-file filesystem, an empty cache, and a miss that
extracts and stores. -/
theorem get_cacheable_apk_info_behavior_witness :
    ("x.apk" ≠ ""
      ∧ (⟨fun q => if q = "x.apk" then some 5 else none,
          fun p => ⟨some p, some "com.example", none, none, some "1.0", none, none, [],
            none, [], []⟩⟩ : ApkEnv).statMtime "x.apk" = some 5
      ∧ ApkInfoCache.get_info ⟨none, 0⟩ ⟨none, []⟩ (apkIdOf "x.apk" 5) = (⟨none, []⟩, none)) ∧
    get_cacheable_apk_info
      ⟨fun q => if q = "x.apk" then some 5 else none,
       fun p => ⟨some p, some "com.example", none, none, some "1.0", none, none, [],
         none, [], []⟩⟩
      ⟨none, 0⟩ ⟨none, []⟩ (some "x.apk")
      = .ok (some ⟨some "x.apk", some "com.example", none, none, some "1.0", none, none, [],
               none, [], []⟩,
             (ApkInfoCache.storeTrue ⟨none, 0⟩ ⟨none, []⟩
               ⟨some "x.apk", some "com.example", none, none, some "1.0", none, none, [],
                 none, [], []⟩ (apkIdOf "x.apk" 5)).1,
             (ApkInfoCache.storeTrue ⟨none, 0⟩ ⟨none, []⟩
               ⟨some "x.apk", some "com.example", none, none, some "1.0", none, none, [],
                 none, [], []⟩ (apkIdOf "x.apk" 5)).2) :=
  ⟨⟨by decide, by simp, rfl⟩,
   (get_cacheable_apk_info_behavior
      ⟨fun q => if q = "x.apk" then some 5 else none,
       fun p => ⟨some p, some "com.example", none, none, some "1.0", none, none, [],
         none, [], []⟩⟩
      ⟨none, 0⟩ ⟨none, []⟩ "x.apk" 5).2.2.2.2 ⟨none, []⟩ (by decide) (by simp) rfl⟩

/-- C8 counterexample: predicate evaluation is not total over every
candidate path — the version matcher, run against the real metadata
accessor on a path whose file does not exist, propagates the
FileNotFoundError raised by os.stat instead of returning a boolean. -/
theorem apk_version_matches_missing_file_raises :
    apk_version_matches
      (fun q => (get_cacheable_apk_info
        ⟨fun _ => none,
         fun p => ⟨some p, none, none, none, none, none, none, [], none, [], []⟩⟩
        ⟨none, 0⟩ ⟨none, []⟩ (some q)).map Prod.fst)
      "missing.apk" (.str "1.0")
      = .error (.fileNotFound "missing.apk") := rfl

/-- C8 as amended: for every candidate path at which the metadata lookup
itself does not raise, each predicate matcher returns a boolean and never
raises — for the ABI matcher under a nonempty requested ABI list — and
empty or null version strings are treated as never-matching rather than
raising. -/
theorem predicate_matchers_total_on_lookup (gi : GetInfo) (path : String)
    (o : Option ApkInfo) (h : gi path = .ok o) :
    (∀ v : StrOrList,
      apk_version_matches gi path v = .ok (apk_version_matchesInfo o (list_or_string v))) ∧
    (∀ mn mx, apk_version_matches_range gi path mn mx
      = .ok (apk_version_matches_rangeInfo o mn mx)) ∧
    (∀ u, uiauto_test_matches gi path u = .ok (uiauto_test_matchesInfo o u)) ∧
    (∀ pkg, package_name_matches gi path pkg = .ok (package_name_matchesInfo o pkg)) ∧
    (∀ (v : StrOrList) (e : Bool), list_or_string v ≠ [] →
      apk_abi_matches gi path v e = .ok (apk_abi_matchesB o (list_or_string v) e)) ∧
    (∀ mn mx, range_version_matching none mn mx = false
      ∧ range_version_matching (some "") mn mx = false) := by
  refine ⟨?_, ?_, ?_, ?_, ?_, ?_⟩
  · intro v
    rw [apk_version_matches, h, exceptBind_ok]
    rfl
  · intro mn mx
    rw [apk_version_matches_range, h, exceptBind_ok]
    rfl
  · intro u
    rw [uiauto_test_matches, h, exceptBind_ok]
    rfl
  · intro pkg
    rw [package_name_matches, h, exceptBind_ok]
    rfl
  · intro v e hne
    rw [apk_abi_matches, h, exceptBind_ok, apk_abi_matchesInfo_ok o v e hne]
  · intro mn mx
    exact ⟨rfl, rfl⟩

/-- Witness for C8: the version matcher over an accessor that reports no
metadata answers false without raising. -/
theorem predicate_matchers_total_on_lookup_witness :
    ((fun _ => Except.ok none : GetInfo) "a.apk" = .ok none) ∧
    apk_version_matches (fun _ => Except.ok none) "a.apk" (.str "1.0") = .ok false :=
  ⟨rfl,
   ((predicate_matchers_total_on_lookup (fun _ => Except.ok none) "a.apk" none rfl).1
      (.str "1.0")).trans rfl⟩

/-- C9: from any cache state, storing a record under a key and reading the
key back returns an equal record, both in the same instance and in a fresh
instance initialized over the persisted file; storing again under the same
key with overwrite replaces the value and the replacement is immediately
visible; storing under an existing key without overwrite raises the
duplicate-entry ValueError. -/
theorem apk_info_cache_round_trip (d : CacheDisk) (c : ApkInfoCache) (r r2 : ApkInfo)
    (K : String) :
    (ApkInfoCache.store d c r K true = .ok (ApkInfoCache.storeTrue d c r K)) ∧
    ((ApkInfoCache.get_info (ApkInfoCache.storeTrue d c r K).1
        (ApkInfoCache.storeTrue d c r K).2 K).2 = some r) ∧
    ((ApkInfoCache.get_info (ApkInfoCache.storeTrue d c r K).1
        (ApkInfoCache.init (ApkInfoCache.storeTrue d c r K).1) K).2 = some r) ∧
    (ApkInfoCache.store (ApkInfoCache.storeTrue d c r K).1
        (ApkInfoCache.storeTrue d c r K).2 r2 K true
      = .ok (ApkInfoCache.storeTrue (ApkInfoCache.storeTrue d c r K).1
          (ApkInfoCache.storeTrue d c r K).2 r2 K)) ∧
    ((ApkInfoCache.get_info
        (ApkInfoCache.storeTrue (ApkInfoCache.storeTrue d c r K).1
          (ApkInfoCache.storeTrue d c r K).2 r2 K).1
        (ApkInfoCache.storeTrue (ApkInfoCache.storeTrue d c r K).1
          (ApkInfoCache.storeTrue d c r K).2 r2 K).2 K).2 = some r2) ∧
    (ApkInfoCache.store (ApkInfoCache.storeTrue d c r K).1
        (ApkInfoCache.storeTrue d c r K).2 r2 K false = .error .valueError) := by
  refine ⟨ApkInfoCache.store_overwrite_ok d c r K, ?_, ?_,
    ApkInfoCache.store_overwrite_ok _ _ r2 K, ?_, ?_⟩
  · simp [ApkInfoCache.get_info, ApkInfoCache.storeTrue, ApkInfoCache.updateFrom,
      lookupAssoc_insertAssoc, ApkInfo.from_pod_to_pod]
  · simp [ApkInfoCache.get_info, ApkInfoCache.init, ApkInfoCache.storeTrue,
      ApkInfoCache.updateFrom, lookupAssoc_insertAssoc, ApkInfo.from_pod_to_pod]
  · simp [ApkInfoCache.get_info, ApkInfoCache.storeTrue, ApkInfoCache.updateFrom,
      lookupAssoc_insertAssoc, ApkInfo.from_pod_to_pod]
  · simp [ApkInfoCache.store, ApkInfoCache.storeTrue, ApkInfoCache.updateFrom,
      lookupAssoc_insertAssoc]
